import Mathlib

/-
Verification of the cache-aside access layer in `cache/cache.go`
(package `cache` of swamvenk/go-commons).

The Go code is shallowly embedded: each method of `*cache.Client` becomes a
pure Lean function that returns, besides the Go return value, an explicit
trace of its side effects (metric Track calls, Log calls, storage calls, the
pending-write counter delta, and the asynchronous writes it spawns with
`go c.Set(context.Background(), key, dest)`).  Go interface values
(`Storage`, `Builder`, the `encoding.BinaryMarshaler` / `BinaryUnmarshaler`
capabilities of the destination value) are modelled as records of pure
functions supplied as parameters; `context.Context` is modelled by its two
observable features, cancellation and deadline.
-/

namespace GoCommons

/-- Go `error` values as they matter to this package: the distinguished
sentinel `ErrCacheMiss` (compared with `==` in `Get`), the build-failure
wrapper `LambdaError` carrying its cause, and all other opaque errors. -/
inductive GoErr where
  | errCacheMiss : GoErr
  | lambdaErr (cause : GoErr) : GoErr
  | other (msg : String) : GoErr
deriving DecidableEq, Repr

/-- The sentinel returned by a `Storage` to signal a cache miss. -/
def ErrCacheMiss : GoErr := GoErr.errCacheMiss

/-- The wrapped error `&LambdaError\x7bCause: err\x7d` returned by
`onCacheMiss` when the builder fails. -/
def LambdaError (cause : GoErr) : GoErr := GoErr.lambdaErr cause

/-- The `Cause` field of a `LambdaError`, `none` for any other error shape. -/
def GoErr.cause : GoErr → Option GoErr
  | GoErr.lambdaErr c => some c
  | _ => none

/-- Whether an `Except` computation failed. -/
def isErr {α : Type} (r : Except GoErr α) : Bool :=
  match r with
  | Except.error _ => true
  | Except.ok _ => false

/-- Whether a storage read outcome is the distinguished cache miss. -/
def isMiss {α : Type} (r : Except GoErr α) : Bool :=
  match r with
  | Except.error e => decide (e = ErrCacheMiss)
  | Except.ok _ => false

/-- Raw byte payloads (`[]byte`). -/
abbrev Bytes := List Nat

/-- The cache event kinds passed to `Metrics.Track`. -/
inductive CacheEvent where
  | cacheHit : CacheEvent
  | cacheMiss : CacheEvent
  | cacheGetError : CacheEvent
  | cacheLambdaError : CacheEvent
  | cacheUnmarshalError : CacheEvent
  | cacheMarshalError : CacheEvent
  | cacheSetError : CacheEvent
  | cacheInvalidateError : CacheEvent
deriving DecidableEq, Repr

/-- A `context.Context`, reduced to its observable features: whether it is
cancelled and its absolute deadline (in nanoseconds), if any. -/
structure Context where
  cancelled : Bool
  deadline : Option Int
deriving DecidableEq, Repr

/-- `context.Background()`: never cancelled, no deadline. -/
def Context.background : Context :=
  { cancelled := false, deadline := none }

/-- `context.WithTimeout(parent, d)` at absolute time `now`: the child
inherits the parent's cancellation and carries the earlier of the parent's
deadline and `now + d`. -/
def Context.withTimeout (parent : Context) (now d : Int) : Context :=
  { cancelled := parent.cancelled
    deadline := some (match parent.deadline with
      | none => now + d
      | some pd => min pd (now + d)) }

/-- The `Storage` interface: byte-level Get/Set/Invalidate keyed by string.
`get` returns `Except.error ErrCacheMiss` for the distinguished miss;
`set` and `invalidate` return `some e` on failure, `none` on success. -/
structure StorageOps where
  get : Context → String → Except GoErr Bytes
  set : Context → String → Bytes → Option GoErr
  invalidate : Context → String → Option GoErr

/-- The `BinaryEncoder` capability of the destination value (the union of
`encoding.BinaryMarshaler` and `encoding.BinaryUnmarshaler`).  Because Go
populates `dest` in place, `UnmarshalBinary` takes the current value and
returns the updated one. -/
structure BinaryEncoder (V : Type) where
  MarshalBinary : V → Except GoErr Bytes
  UnmarshalBinary : V → Bytes → Except GoErr V

/-- A `Builder`: `Build(ctx, key, dest)` populates `dest` in place, so it is
modelled as returning the updated destination value on success. -/
def Builder (V : Type) := Context → String → V → Except GoErr V

/-- `time.Second` in nanoseconds (`time.Duration` is an int64 count of
nanoseconds). -/
def Second : Int := 1000000000

/-- The `cache.Client` struct.  `Storage`, `WriteTimeout` and the private
`pendingWrites` counter are carried; the optional `Logger` and `Metrics`
sinks are resolved through `getLogger`/`getMetrics` to no-op
implementations when unset, so `Log`/`Track` invocations are recorded in
the effect traces independently of whether a sink is configured. -/
structure Client (V : Type) where
  Storage : StorageOps
  WriteTimeout : Int
  pendingWrites : Int

/-- `getWriteTimeout`: the configured `WriteTimeout` when positive,
otherwise 3 seconds. -/
def Client.getWriteTimeout {V : Type} (c : Client V) : Int :=
  if c.WriteTimeout > 0 then c.WriteTimeout else 3 * Second

/-- A `Log` call: format string, key argument, error argument. -/
abbrev LogCall := String × String × GoErr

/-- Everything observable about one execution of `Client.Set`. -/
structure SetResult where
  events : List CacheEvent
  logs : List LogCall
  storageSetCalls : List (String × Bytes)
  pendingDelta : Int
  writeCtx : Context
deriving DecidableEq, Repr

/-- `Client.Set`: decrements `pendingWrites` in a deferred block on every
exit path, derives the write context with `context.WithTimeout` from the
supplied context and `getWriteTimeout`, marshals the value (aborting with a
marshal-error metric on failure), then calls `Storage.Set`, logging and
metering a set-error on failure. -/
def Client.Set {V : Type} (c : Client V) (enc : BinaryEncoder V) (ctx : Context)
    (now : Int) (key : String) (val : V) : SetResult :=
  let ctx2 := ctx.withTimeout now c.getWriteTimeout
  match enc.MarshalBinary val with
  | Except.error e =>
      { events := [CacheEvent.cacheMarshalError]
        logs := [("cache update marshal error. key: %s error: %s", key, e)]
        storageSetCalls := []
        pendingDelta := -1
        writeCtx := ctx2 }
  | Except.ok bytes =>
      match c.Storage.set ctx2 key bytes with
      | some e =>
          { events := [CacheEvent.cacheSetError]
            logs := [("cache update set error. key: %s error: %s", key, e)]
            storageSetCalls := [(key, bytes)]
            pendingDelta := -1
            writeCtx := ctx2 }
      | none =>
          { events := []
            logs := []
            storageSetCalls := [(key, bytes)]
            pendingDelta := -1
            writeCtx := ctx2 }

/-- Everything observable about one execution of `Client.Invalidate`. -/
structure InvalidateResult where
  err : Option GoErr
  events : List CacheEvent
  logs : List LogCall
  invalidateCalls : List String
deriving DecidableEq, Repr

/-- `Client.Invalidate`: forwards to `Storage.Invalidate`; on failure logs,
records an invalidate-error metric and returns the error. -/
def Client.Invalidate {V : Type} (c : Client V) (ctx : Context) (key : String) :
    InvalidateResult :=
  match c.Storage.invalidate ctx key with
  | some e =>
      { err := some e
        events := [CacheEvent.cacheInvalidateError]
        logs := [("cache invalidate error. key: %s error: %s", key, e)]
        invalidateCalls := [key] }
  | none =>
      { err := none, events := [], logs := [], invalidateCalls := [key] }

/-- Everything observable about one execution of `Client.Get`:
the returned error, the final destination value, the metric and log traces,
how often the builder ran, the synchronous storage Set/Invalidate calls,
the delta applied to `pendingWrites`, and the asynchronous writes spawned
with `go c.Set(context.Background(), key, dest)`. -/
structure GetResult (V : Type) where
  err : Option GoErr
  dest : V
  events : List CacheEvent
  logs : List LogCall
  builderCalls : Nat
  storageSetCalls : List (String × Bytes)
  invalidateCalls : List String
  pendingDelta : Int
  scheduledWrites : List (String × V)
deriving DecidableEq

/-- `onCacheMiss`: runs the builder; on failure logs, records a
build-error metric and returns `&LambdaError\x7bCause: err\x7d`; on success
increments `pendingWrites`, spawns `go c.Set(context.Background(), key,
dest)` and returns nil. -/
def Client.onCacheMiss {V : Type} (c : Client V) (ctx : Context) (key : String)
    (dest : V) (builder : Builder V) : GetResult V :=
  match builder ctx key dest with
  | Except.error e =>
      { err := some (LambdaError e)
        dest := dest
        events := [CacheEvent.cacheLambdaError]
        logs := [("cache miss build error. key: %s error: %s", key, e)]
        builderCalls := 1
        storageSetCalls := []
        invalidateCalls := []
        pendingDelta := 0
        scheduledWrites := [] }
  | Except.ok dest2 =>
      { err := none
        dest := dest2
        events := []
        logs := []
        builderCalls := 1
        storageSetCalls := []
        invalidateCalls := []
        pendingDelta := 1
        scheduledWrites := [(key, dest2)] }

/-- `onCacheHit`: unmarshals the stored bytes into `dest`; on failure logs,
records an unmarshal-error metric, invalidates the key (discarding that
call's own error) and returns the unmarshal error; on success records a hit
metric and returns nil. -/
def Client.onCacheHit {V : Type} (c : Client V) (enc : BinaryEncoder V)
    (ctx : Context) (key : String) (dest : V) (bytes : Bytes) : GetResult V :=
  match enc.UnmarshalBinary dest bytes with
  | Except.error e =>
      let inv := c.Invalidate ctx key
      { err := some e
        dest := dest
        events := CacheEvent.cacheUnmarshalError :: inv.events
        logs := ("cache hit unmarshal error. key: %s error: %s", key, e) :: inv.logs
        builderCalls := 0
        storageSetCalls := []
        invalidateCalls := inv.invalidateCalls
        pendingDelta := 0
        scheduledWrites := [] }
  | Except.ok dest2 =>
      { err := none
        dest := dest2
        events := [CacheEvent.cacheHit]
        logs := []
        builderCalls := 0
        storageSetCalls := []
        invalidateCalls := []
        pendingDelta := 0
        scheduledWrites := [] }

/-- `Client.Get`: reads from storage; on `ErrCacheMiss` records a miss
metric and takes the build path, on any other error logs, records a
storage-get-error metric and returns the error unchanged, on success takes
the decode path. -/
def Client.Get {V : Type} (c : Client V) (enc : BinaryEncoder V) (ctx : Context)
    (key : String) (dest : V) (builder : Builder V) : GetResult V :=
  match c.Storage.get ctx key with
  | Except.error e =>
      if e = ErrCacheMiss then
        let r := c.onCacheMiss ctx key dest builder
        { r with events := CacheEvent.cacheMiss :: r.events }
      else
        { err := some e
          dest := dest
          events := [CacheEvent.cacheGetError]
          logs := [("cache get error. key: %s error: %s", key, e)]
          builderCalls := 0
          storageSetCalls := []
          invalidateCalls := []
          pendingDelta := 0
          scheduledWrites := [] }
  | Except.ok bytes => c.onCacheHit enc ctx key dest bytes

/-- Running one of the asynchronous writes spawned by `onCacheMiss`:
`go c.Set(context.Background(), key, dest)` invokes `Set` with a fresh
background context at the spawn time `now`. -/
def Client.runScheduledWrite {V : Type} (c : Client V) (enc : BinaryEncoder V)
    (now : Int) (w : String × V) : SetResult :=
  c.Set enc Context.background now w.1 w.2

/-- The client state after a sequence of direct `Set` calls, each given as
(context, time, key, value): only `pendingWrites` changes, by each call's
delta. -/
def Client.afterSets {V : Type} (c : Client V) (enc : BinaryEncoder V)
    (calls : List (Context × Int × String × V)) : Client V :=
  calls.foldl
    (fun acc call =>
      { acc with pendingWrites :=
          acc.pendingWrites +
            (acc.Set enc call.1 call.2.1 call.2.2.1 call.2.2.2).pendingDelta })
    c

/-! Concrete instances used as witnesses and counterexamples. -/

/-- A binary encoder for `Nat` values: a value marshals to the singleton
byte list holding it and unmarshals from exactly such a list. -/
def natEnc : BinaryEncoder Nat where
  MarshalBinary v := Except.ok [v]
  UnmarshalBinary _ bs :=
    match bs with
    | [b] => Except.ok b
    | _ => Except.error (GoErr.other "unmarshal: bad payload")

/-- An encoder whose marshalling always fails. -/
def badEnc : BinaryEncoder Nat where
  MarshalBinary _ := Except.error (GoErr.other "marshal failure")
  UnmarshalBinary _ _ := Except.error (GoErr.other "unmarshal failure")

/-- A storage that always reports a cache miss. -/
def missStorage : StorageOps where
  get _ _ := Except.error ErrCacheMiss
  set _ _ _ := none
  invalidate _ _ := none

/-- A storage whose reads fail with a non-miss operational error. -/
def errStorage : StorageOps where
  get _ _ := Except.error (GoErr.other "storage timeout")
  set _ _ _ := none
  invalidate _ _ := none

/-- A storage holding the byte payload `[9]` for every key. -/
def hitStorage : StorageOps where
  get _ _ := Except.ok [9]
  set _ _ _ := none
  invalidate _ _ := none

/-- A storage returning the empty payload (which `natEnc` cannot decode). -/
def corruptStorage : StorageOps where
  get _ _ := Except.ok []
  set _ _ _ := none
  invalidate _ _ := none

/-- A fresh client over the always-missing storage. -/
def exClient : Client Nat :=
  { Storage := missStorage, WriteTimeout := 0, pendingWrites := 0 }

/-- A fresh client over the failing storage. -/
def errClient : Client Nat :=
  { Storage := errStorage, WriteTimeout := 0, pendingWrites := 0 }

/-- A fresh client over the storage holding `[9]`. -/
def hitClient : Client Nat :=
  { Storage := hitStorage, WriteTimeout := 0, pendingWrites := 0 }

/-- A fresh client over the storage holding an undecodable payload. -/
def corruptClient : Client Nat :=
  { Storage := corruptStorage, WriteTimeout := 0, pendingWrites := 0 }

/-- A client with a positive configured write timeout. -/
def posTimeoutClient : Client Nat :=
  { Storage := missStorage, WriteTimeout := 7, pendingWrites := 0 }

/-- A client with a negative configured write timeout. -/
def negTimeoutClient : Client Nat :=
  { Storage := missStorage, WriteTimeout := -5, pendingWrites := 0 }

/-- A builder that always fails. -/
def failBuilder : Builder Nat := fun _ _ _ => Except.error (GoErr.other "db unreachable")

/-- A builder that always produces the value 42. -/
def okBuilder : Builder Nat := fun _ _ _ => Except.ok 42

/-! Shared helper lemmas. -/

/-- Every execution of `Set` carries pending-write delta `-1`: the
decrement sits in a deferred block entered before any branch. -/
theorem Set_pendingDelta {V : Type} (c : Client V) (enc : BinaryEncoder V)
    (ctx : Context) (now : Int) (key : String) (val : V) :
    (c.Set enc ctx now key val).pendingDelta = -1 := by
  dsimp only [Client.Set]
  split
  · rfl
  · split <;> rfl

/-- Every execution of `Set` uses, for the storage write, the context
obtained from the supplied one by `context.WithTimeout` with the effective
write timeout. -/
theorem Set_writeCtx {V : Type} (c : Client V) (enc : BinaryEncoder V)
    (ctx : Context) (now : Int) (key : String) (val : V) :
    (c.Set enc ctx now key val).writeCtx = ctx.withTimeout now c.getWriteTimeout := by
  dsimp only [Client.Set]
  split
  · rfl
  · split <;> rfl

/-! Claim theorems. -/

/-- C10: the effective write timeout is the configured `WriteTimeout` when
that is strictly positive, and 3 seconds for every non-positive configured
value, negative values included. -/
theorem getWriteTimeout_spec {V : Type} (c : Client V) :
    (0 < c.WriteTimeout → c.getWriteTimeout = c.WriteTimeout) ∧
    (c.WriteTimeout ≤ 0 → c.getWriteTimeout = 3 * Second) := by
  constructor
  · intro h
    unfold Client.getWriteTimeout
    simp [h]
  · intro h
    unfold Client.getWriteTimeout
    simp [not_lt.mpr h]

/-- Witness for C10 at the clients with `WriteTimeout` 7 and -5. -/
theorem getWriteTimeout_spec_witness :
    posTimeoutClient.getWriteTimeout = 7 ∧
    negTimeoutClient.getWriteTimeout = 3 * Second :=
  ⟨by
      have h := (getWriteTimeout_spec posTimeoutClient).1 (by decide)
      simpa using h,
    (getWriteTimeout_spec negTimeoutClient).2 (by decide)⟩

/-- C8: every call to `Set` applies pending-write delta `-1` exactly once,
on every exit path; and when marshalling fails, `Storage.Set` is never
called. -/
theorem Set_decrements_once {V : Type} (c : Client V) (enc : BinaryEncoder V)
    (ctx : Context) (now : Int) (key : String) (val : V) :
    (c.Set enc ctx now key val).pendingDelta = -1 ∧
    (isErr (enc.MarshalBinary val) = true →
      (c.Set enc ctx now key val).storageSetCalls = []) := by
  refine ⟨Set_pendingDelta c enc ctx now key val, ?_⟩
  intro h
  unfold Client.Set
  cases hm : enc.MarshalBinary val with
  | error e => rfl
  | ok bs => simp [isErr, hm] at h

/-- Witness for C8 at a client whose encoder always fails to marshal. -/
theorem Set_decrements_once_witness :
    (exClient.Set badEnc Context.background 0 "k" 5).pendingDelta = -1 ∧
    (exClient.Set badEnc Context.background 0 "k" 5).storageSetCalls = [] :=
  ⟨(Set_decrements_once exClient badEnc Context.background 0 "k" 5).1,
    (Set_decrements_once exClient badEnc Context.background 0 "k" 5).2 (by rfl)⟩

/-- C2 counterexample: the context used for the storage write is not
independent of the caller's cancellation — a direct `Set` call with an
already-cancelled caller context performs its write under a cancelled
context, while the same call under a background context does not. -/
theorem Set_ctx_independence_counterexample :
    (exClient.Set natEnc { cancelled := true, deadline := none } 0 "k" 5).writeCtx.cancelled
        = true ∧
    (exClient.Set natEnc Context.background 0 "k" 5).writeCtx.cancelled = false := by
  exact ⟨rfl, rfl⟩

/-- C2 amended: the write context's deadline is always bounded by
`now + getWriteTimeout`, but the context inherits the caller's
cancellation; full independence holds only for the asynchronous write-back,
which `onCacheMiss` spawns with `context.Background()`, whose write context
is uncancelled with deadline exactly `now + getWriteTimeout`. -/
theorem Set_writeCtx_amended {V : Type} (c : Client V) (enc : BinaryEncoder V)
    (ctx : Context) (now : Int) (key : String) (v : V) :
    (∃ d, (c.Set enc ctx now key v).writeCtx.deadline = some d ∧
        d ≤ now + c.getWriteTimeout) ∧
    (c.Set enc ctx now key v).writeCtx.cancelled = ctx.cancelled ∧
    (c.runScheduledWrite enc now (key, v)).writeCtx =
      { cancelled := false, deadline := some (now + c.getWriteTimeout) } := by
  have hw := Set_writeCtx c enc ctx now key v
  refine ⟨?_, ?_, ?_⟩
  · rw [hw]
    unfold Context.withTimeout
    cases hd : ctx.deadline with
    | none => exact ⟨now + c.getWriteTimeout, rfl, le_refl _⟩
    | some pd => exact ⟨min pd (now + c.getWriteTimeout), rfl, min_le_right _ _⟩
  · rw [hw]; rfl
  · unfold Client.runScheduledWrite
    rw [Set_writeCtx]
    rfl

/-- The five metric event kinds named by the per-call exclusivity sentence
of the specification. -/
def coreGetEvents : List CacheEvent :=
  [CacheEvent.cacheHit, CacheEvent.cacheMiss, CacheEvent.cacheGetError,
   CacheEvent.cacheLambdaError, CacheEvent.cacheUnmarshalError]

/-- The four mutually exclusive outcome events of a `Get` call (the build
error is recorded in addition to the miss, not instead of it). -/
def classifyingEvents : List CacheEvent :=
  [CacheEvent.cacheHit, CacheEvent.cacheMiss, CacheEvent.cacheGetError,
   CacheEvent.cacheUnmarshalError]

/-- How many events of a trace belong to a selection. -/
def countIn (sel : List CacheEvent) (es : List CacheEvent) : Nat :=
  (es.filter (fun e => decide (e ∈ sel))).length

/-- C1 counterexample: a `Get` whose storage read misses and whose build
fails records two events of the selection, the miss and the build error,
so "exactly one of the five" fails. -/
theorem Get_one_metric_counterexample :
    countIn coreGetEvents
        (exClient.Get natEnc Context.background "user:7" 0 failBuilder).events = 2 ∧
    (exClient.Get natEnc Context.background "user:7" 0 failBuilder).events =
      [CacheEvent.cacheMiss, CacheEvent.cacheLambdaError] := by
  exact ⟨rfl, rfl⟩

/-- C1 amended: every `Get` call records exactly one event from
\x7bhit, miss, storage-get-error, unmarshal-error\x7d, and records one
additional build-error event exactly when the storage read misses and the
build fails (and never more than one). -/
theorem Get_metrics_amended {V : Type} (c : Client V) (enc : BinaryEncoder V)
    (ctx : Context) (key : String) (dest : V) (builder : Builder V) :
    countIn classifyingEvents (c.Get enc ctx key dest builder).events = 1 ∧
    ((c.Get enc ctx key dest builder).events.count CacheEvent.cacheLambdaError =
      if isMiss (c.Storage.get ctx key) = true ∧
          isErr (builder ctx key dest) = true
        then 1 else 0) := by
  cases hg : c.Storage.get ctx key with
  | error e =>
      by_cases he : e = ErrCacheMiss
      · subst he
        cases hb : builder ctx key dest with
        | error e2 =>
            simp [Client.Get, Client.onCacheMiss, hg, hb, countIn,
              classifyingEvents, isErr, isMiss]
        | ok v =>
            simp [Client.Get, Client.onCacheMiss, hg, hb, countIn,
              classifyingEvents, isErr, isMiss]
      · simp [Client.Get, hg, he, countIn, classifyingEvents, isMiss]
  | ok bs =>
      cases hu : enc.UnmarshalBinary dest bs with
      | error e2 =>
          cases hi : c.Storage.invalidate ctx key with
          | none =>
              simp [Client.Get, Client.onCacheHit, Client.Invalidate, hg, hu, hi,
                countIn, classifyingEvents, isMiss]
          | some e3 =>
              simp [Client.Get, Client.onCacheHit, Client.Invalidate, hg, hu, hi,
                countIn, classifyingEvents, isMiss]
      | ok v =>
          simp [Client.Get, Client.onCacheHit, hg, hu, countIn, classifyingEvents, isMiss]

/-- C3: when the storage read misses and the build succeeds, `Get` returns
nil, the destination holds the built value, exactly one miss metric is
recorded, the pending-write counter delta is +1, exactly one asynchronous
write for the key and built value is spawned, and running that write calls
`Storage.Set` with the serialized built value. -/
theorem Get_miss_build_success {V : Type} (c : Client V) (enc : BinaryEncoder V)
    (ctx : Context) (key : String) (dest built : V) (builder : Builder V)
    (bs : Bytes) (now : Int)
    (hmiss : c.Storage.get ctx key = Except.error ErrCacheMiss)
    (hbuild : builder ctx key dest = Except.ok built) :
    (c.Get enc ctx key dest builder).err = none ∧
    (c.Get enc ctx key dest builder).dest = built ∧
    (c.Get enc ctx key dest builder).events = [CacheEvent.cacheMiss] ∧
    (c.Get enc ctx key dest builder).pendingDelta = 1 ∧
    (c.Get enc ctx key dest builder).scheduledWrites = [(key, built)] ∧
    (enc.MarshalBinary built = Except.ok bs →
      (c.runScheduledWrite enc now (key, built)).storageSetCalls = [(key, bs)]) := by
  refine ⟨?_, ?_, ?_, ?_, ?_, ?_⟩
  · simp [Client.Get, Client.onCacheMiss, hmiss, hbuild]
  · simp [Client.Get, Client.onCacheMiss, hmiss, hbuild]
  · simp [Client.Get, Client.onCacheMiss, hmiss, hbuild]
  · simp [Client.Get, Client.onCacheMiss, hmiss, hbuild]
  · simp [Client.Get, Client.onCacheMiss, hmiss, hbuild]
  · intro hm
    simp only [Client.runScheduledWrite, Client.Set, hm]
    split <;> rfl

/-- Witness for C3: scenario of a fresh miss with a successful build of 42
under key user:42. -/
theorem Get_miss_build_success_witness :
    (exClient.Get natEnc Context.background "user:42" 0 okBuilder).err = none ∧
    (exClient.Get natEnc Context.background "user:42" 0 okBuilder).dest = 42 ∧
    (exClient.Get natEnc Context.background "user:42" 0 okBuilder).events =
      [CacheEvent.cacheMiss] ∧
    (exClient.Get natEnc Context.background "user:42" 0 okBuilder).pendingDelta = 1 ∧
    (exClient.Get natEnc Context.background "user:42" 0 okBuilder).scheduledWrites =
      [("user:42", 42)] ∧
    (exClient.runScheduledWrite natEnc 0 ("user:42", 42)).storageSetCalls =
      [("user:42", [42])] := by
  have h := Get_miss_build_success exClient natEnc Context.background "user:42" 0 42
    okBuilder [42] 0 rfl rfl
  exact ⟨h.1, h.2.1, h.2.2.1, h.2.2.2.1, h.2.2.2.2.1, h.2.2.2.2.2 rfl⟩

/-- C4: a non-miss storage read error is returned unchanged; the builder
never runs and no storage write happens nor is scheduled. -/
theorem Get_storage_error_passthrough {V : Type} (c : Client V)
    (enc : BinaryEncoder V) (ctx : Context) (key : String) (dest : V)
    (builder : Builder V) (e : GoErr)
    (herr : c.Storage.get ctx key = Except.error e)
    (hne : e ≠ ErrCacheMiss) :
    (c.Get enc ctx key dest builder).err = some e ∧
    (c.Get enc ctx key dest builder).builderCalls = 0 ∧
    (c.Get enc ctx key dest builder).storageSetCalls = [] ∧
    (c.Get enc ctx key dest builder).scheduledWrites = [] := by
  refine ⟨?_, ?_, ?_, ?_⟩ <;> simp [Client.Get, herr, hne]

/-- Witness for C4: scenario of a storage timeout on key user:9. -/
theorem Get_storage_error_passthrough_witness :
    (errClient.Get natEnc Context.background "user:9" 0 okBuilder).err =
        some (GoErr.other "storage timeout") ∧
    (errClient.Get natEnc Context.background "user:9" 0 okBuilder).builderCalls = 0 ∧
    (errClient.Get natEnc Context.background "user:9" 0 okBuilder).storageSetCalls = [] ∧
    (errClient.Get natEnc Context.background "user:9" 0 okBuilder).scheduledWrites = [] :=
  Get_storage_error_passthrough errClient natEnc Context.background "user:9" 0 okBuilder
    (GoErr.other "storage timeout") rfl (by decide)

/-- C5: a failed build yields the wrapped `LambdaError` whose cause is the
build failure, a shape distinct from the miss sentinel and from every plain
error, and no storage write happens nor is scheduled. -/
theorem Get_build_error_wrapped {V : Type} (c : Client V) (enc : BinaryEncoder V)
    (ctx : Context) (key : String) (dest : V) (builder : Builder V) (E : GoErr)
    (hmiss : c.Storage.get ctx key = Except.error ErrCacheMiss)
    (hbuild : builder ctx key dest = Except.error E) :
    (c.Get enc ctx key dest builder).err = some (LambdaError E) ∧
    (LambdaError E).cause = some E ∧
    LambdaError E ≠ ErrCacheMiss ∧
    (∀ m, LambdaError E ≠ GoErr.other m) ∧
    (c.Get enc ctx key dest builder).storageSetCalls = [] ∧
    (c.Get enc ctx key dest builder).scheduledWrites = [] := by
  refine ⟨?_, rfl, by simp [LambdaError, ErrCacheMiss], fun m => by simp [LambdaError], ?_, ?_⟩ <;>
    simp [Client.Get, Client.onCacheMiss, hmiss, hbuild]

/-- Witness for C5: scenario of builder failure db unreachable on key
user:7. -/
theorem Get_build_error_wrapped_witness :
    (exClient.Get natEnc Context.background "user:7" 0 failBuilder).err =
        some (LambdaError (GoErr.other "db unreachable")) ∧
    (LambdaError (GoErr.other "db unreachable")).cause =
        some (GoErr.other "db unreachable") ∧
    LambdaError (GoErr.other "db unreachable") ≠ ErrCacheMiss ∧
    (∀ m, LambdaError (GoErr.other "db unreachable") ≠ GoErr.other m) ∧
    (exClient.Get natEnc Context.background "user:7" 0 failBuilder).storageSetCalls = [] ∧
    (exClient.Get natEnc Context.background "user:7" 0 failBuilder).scheduledWrites = [] :=
  Get_build_error_wrapped exClient natEnc Context.background "user:7" 0 failBuilder
    (GoErr.other "db unreachable") rfl rfl

/-- C6: a decode failure is returned as-is and the key is invalidated
exactly once; the returned error does not depend on how the invalidation
itself turns out. -/
theorem Get_unmarshal_error {V : Type} (c : Client V) (enc : BinaryEncoder V)
    (ctx : Context) (key : String) (dest : V) (builder : Builder V)
    (bs : Bytes) (e : GoErr)
    (hget : c.Storage.get ctx key = Except.ok bs)
    (hum : enc.UnmarshalBinary dest bs = Except.error e) :
    (c.Get enc ctx key dest builder).err = some e ∧
    (c.Get enc ctx key dest builder).invalidateCalls = [key] ∧
    (∀ inv2, (({ c with
        Storage := { c.Storage with invalidate := inv2 } } : Client V).Get
          enc ctx key dest builder).err = some e) := by
  refine ⟨?_, ?_, ?_⟩
  · simp [Client.Get, Client.onCacheHit, hget, hum]
  · cases hi : c.Storage.invalidate ctx key with
    | none => simp [Client.Get, Client.onCacheHit, Client.Invalidate, hget, hum, hi]
    | some e3 => simp [Client.Get, Client.onCacheHit, Client.Invalidate, hget, hum, hi]
  · intro inv2
    simp [Client.Get, Client.onCacheHit, hget, hum]

/-- Witness for C6: scenario of an undecodable stored payload under key
user:42. -/
theorem Get_unmarshal_error_witness :
    (corruptClient.Get natEnc Context.background "user:42" 0 okBuilder).err =
        some (GoErr.other "unmarshal: bad payload") ∧
    (corruptClient.Get natEnc Context.background "user:42" 0 okBuilder).invalidateCalls =
        ["user:42"] := by
  have h := Get_unmarshal_error corruptClient natEnc Context.background "user:42" 0
    okBuilder [] (GoErr.other "unmarshal: bad payload") rfl rfl
  exact ⟨h.1, h.2.1⟩

/-- C7: a hit with a successful decode returns nil, leaves the decoded
stored value in the destination, records exactly one hit metric, and never
runs the builder. -/
theorem Get_hit_success {V : Type} (c : Client V) (enc : BinaryEncoder V)
    (ctx : Context) (key : String) (dest : V) (builder : Builder V)
    (bs : Bytes) (v : V)
    (hget : c.Storage.get ctx key = Except.ok bs)
    (hum : enc.UnmarshalBinary dest bs = Except.ok v) :
    (c.Get enc ctx key dest builder).err = none ∧
    (c.Get enc ctx key dest builder).dest = v ∧
    (c.Get enc ctx key dest builder).events = [CacheEvent.cacheHit] ∧
    (c.Get enc ctx key dest builder).builderCalls = 0 := by
  refine ⟨?_, ?_, ?_, ?_⟩ <;> simp [Client.Get, Client.onCacheHit, hget, hum]

/-- Witness for C7: scenario of a stored payload decoding to 9. -/
theorem Get_hit_success_witness :
    (hitClient.Get natEnc Context.background "user:42" 0 okBuilder).err = none ∧
    (hitClient.Get natEnc Context.background "user:42" 0 okBuilder).dest = 9 ∧
    (hitClient.Get natEnc Context.background "user:42" 0 okBuilder).events =
      [CacheEvent.cacheHit] ∧
    (hitClient.Get natEnc Context.background "user:42" 0 okBuilder).builderCalls = 0 :=
  Get_hit_success hitClient natEnc Context.background "user:42" 0 okBuilder [9] 9 rfl rfl

/-- Folding direct `Set` calls subtracts the number of calls from the
pending-write counter. -/
theorem afterSets_pendingWrites {V : Type} (enc : BinaryEncoder V)
    (calls : List (Context × Int × String × V)) (c : Client V) :
    (c.afterSets enc calls).pendingWrites = c.pendingWrites - calls.length := by
  induction calls generalizing c with
  | nil => simp [Client.afterSets]
  | cons hd tl ih =>
      unfold Client.afterSets at ih ⊢
      rw [List.foldl_cons, ih]
      simp [Set_pendingDelta]
      omega

/-- C9: `Set` always applies delta -1 while `Get` applies +1 exactly on the
miss-with-successful-build path, so a fresh client reaches counter -n after
n direct `Set` calls with no intervening `Get`. -/
theorem pending_counter_goes_negative {V : Type} (c : Client V)
    (enc : BinaryEncoder V) (calls : List (Context × Int × String × V))
    (hfresh : c.pendingWrites = 0) :
    (c.afterSets enc calls).pendingWrites = -(calls.length : Int) ∧
    (∀ ctx now key val, (c.Set enc ctx now key val).pendingDelta = -1) ∧
    (∀ ctx key dest builder, (c.Get enc ctx key dest builder).pendingDelta =
      if isMiss (c.Storage.get ctx key) = true ∧
          isErr (builder ctx key dest) = false
        then 1 else 0) := by
  refine ⟨?_, fun ctx now key val => Set_pendingDelta c enc ctx now key val, ?_⟩
  · rw [afterSets_pendingWrites, hfresh]
    omega
  · intro ctx key dest builder
    cases hg : c.Storage.get ctx key with
    | error e =>
        by_cases he : e = ErrCacheMiss
        · subst he
          cases hb : builder ctx key dest with
          | error e2 => simp [Client.Get, Client.onCacheMiss, hg, hb, isErr, isMiss]
          | ok v => simp [Client.Get, Client.onCacheMiss, hg, hb, isErr, isMiss]
        · simp [Client.Get, hg, he, isMiss]
    | ok bs =>
        cases hu : enc.UnmarshalBinary dest bs with
        | error e2 => simp [Client.Get, Client.onCacheHit, hg, hu, isMiss]
        | ok v => simp [Client.Get, Client.onCacheHit, hg, hu, isMiss]

/-- Witness for C9: two direct `Set` calls on a fresh client leave the
counter at -2. -/
theorem pending_counter_goes_negative_witness :
    (exClient.afterSets natEnc
      [(Context.background, 0, "a", 1),
       (Context.background, 0, "b", 2)]).pendingWrites = -2 := by
  have h := (pending_counter_goes_negative exClient natEnc
    [(Context.background, 0, "a", 1), (Context.background, 0, "b", 2)] rfl).1
  simpa using h

end GoCommons
